import Mathlib

/-!
Verification of the CareLog record service (`modules/auth.py`, `modules/chat.py`,
`modules/models.py`) against its specification.

The service owns a single in-memory document
`{"hospitals": {hid: {"users": {...}, "notes": [...], "alerts": [...],
"chats": {"general": {...}, "direct": {...}}}}}`.  Python dictionaries are
embedded as association lists over `String` keys (insertion order preserved,
unique keys in all states this code produces); Python lists as `List`;
optional / possibly-missing dictionary fields as `Option`.  The SHA-256
hex-digest primitive and the freshly generated salts, note ids, message ids
and timestamps are nondeterministic or external, so they enter the model as
explicit parameters of the operations that use them.
-/

namespace CareLog

/-- Association-list lookup, modelling Python `d.get(k)` / `d[k]`. -/
def lookupA {α : Type} (k : String) : List (String × α) → Option α
  | [] => none
  | (k', v) :: rest => if k' = k then some v else lookupA k rest

/-- Association-list store, modelling Python `d[k] = v` (replace if present,
else append; Python dicts keep insertion order). -/
def setA {α : Type} (k : String) (v : α) : List (String × α) → List (String × α)
  | [] => [(k, v)]
  | (k', v') :: rest => if k' = k then (k, v) :: rest else (k', v') :: setA k v rest

/-- Association-list deletion, modelling Python `del d[k]` / `d.pop(k, None)`. -/
def eraseA {α : Type} (k : String) : List (String × α) → List (String × α)
  | [] => []
  | (k', v') :: rest => if k' = k then rest else (k', v') :: eraseA k rest

/-- Membership of a key, modelling Python `k in d`. -/
def hasKeyA {α : Type} (k : String) (l : List (String × α)) : Bool :=
  (lookupA k l).isSome

/-- A stored user record (the dictionary written by `register_user`).
`assigned_clinicians` is `Option` because the code reads it defensively with
`.get('assigned_clinicians', ...)` and re-creates it when missing. -/
structure UserRec where
  username : String
  password_hash : String
  role : String
  salt : String
  status : String
  full_name : String
  dob : String
  sex : String
  pronouns : String
  bio : String
  assigned_clinicians : Option (List String)
deriving Repr, DecidableEq

/-- The nested `ai_feedback` object `{text, status}` attached to a note by
the feedback lifecycle (auth.py 239-242, 314-316). -/
structure Feedback where
  text : String
  status : String
deriving Repr, DecidableEq

/-- A note dictionary (`PatientNote.__dict__` from `modules/models.py`).
The `ai_feedback` key is absent on creation (`none`) and is added, rewritten
or deleted by the feedback operations. -/
structure Note where
  note_id : String
  hospital_id : String
  patient_id : String
  author_id : String
  timestamp : String
  mood : Int
  pain : Int
  appetite : Int
  notes : String
  diagnoses : String
  source : String
  is_private : Bool
  hidden_from_patient : Bool
  ai_feedback : Option Feedback
deriving Repr, DecidableEq

/-- A pain alert dictionary as built in `add_note`. -/
structure Alert where
  alert_id : String
  patient_id : String
  timestamp : String
  status : String
deriving Repr, DecidableEq

/-- A chat message dictionary as built by `ChatService._build_message`.
`clinician_username` is present only on direct-channel messages. -/
structure Message where
  message_id : String
  timestamp : String
  sender : String
  sender_role : String
  text : String
  channel : String
  patient_username : String
  clinician_username : Option String
deriving Repr, DecidableEq

/-- The `chats` sub-document: `general` maps a patient username to an ordered
message list, `direct` maps a patient username to a map from clinician
username to an ordered message list. -/
structure Chats where
  general : List (String × List Message)
  direct : List (String × List (String × List Message))
deriving Repr, DecidableEq

/-- One hospital record.  The Lean structure always carries the four
sub-stores; `_ensure_hospital_defaults` makes this true of every hospital the
Python code ever manipulates. -/
structure Hospital where
  users : List (String × UserRec)
  notes : List Note
  alerts : List Alert
  chats : Chats
deriving Repr, DecidableEq

/-- The whole decrypted document. -/
structure Store where
  hospitals : List (String × Hospital)
deriving Repr, DecidableEq

/-- The fresh hospital value created by `register_user` /
`ChatService._ensure_chat_store`. -/
def emptyHospital : Hospital :=
  { users := [], notes := [], alerts := [], chats := { general := [], direct := [] } }

/-- The `{"hospitals": {}}` document of a fresh service. -/
def emptyStore : Store := { hospitals := [] }

/-- The identity of `self.current_user` (a `User` object); only `username` and
`role` are consulted by access control. -/
structure CUser where
  username : String
  role : String
deriving Repr, DecidableEq

/-- `self._data['hospitals'].get(hospital_id, {})`, with the empty dictionary
read back through the same defensive `.get` calls as an empty hospital. -/
def getHospitalD (st : Store) (hid : String) : Hospital :=
  (lookupA hid st.hospitals).getD emptyHospital

/-- `hospital_id in self._data['hospitals']`. -/
def hospitalExists (st : Store) (hid : String) : Bool :=
  hasKeyA hid st.hospitals

/-- Python `f"{username}_{role}"`, the key of a user inside a hospital. -/
def userKey (username role : String) : String :=
  username ++ "_" ++ role

/-- `CareLogService.get_assigned_clinicians_for_patient` (auth.py 600-612):
`patient_data.get('assigned_clinicians', []) or []` on the record stored at
`f"{patient_username}_patient"`. -/
def get_assigned_clinicians_for_patient (st : Store) (hid patient_username : String) :
    List String :=
  match lookupA (userKey patient_username "patient") (getHospitalD st hid).users with
  | none => []
  | some u => u.assigned_clinicians.getD []

/-- `CareLogService.get_notes_for_patient` (auth.py 247-270).  `cu` is
`self.current_user`.  Patients and admins (and a cleared session) receive
every note of the patient; an assigned clinician receives them minus the
patient-private ones; an unassigned clinician receives nothing. -/
def get_notes_for_patient (cu : Option CUser) (st : Store) (hid patient_id : String) :
    List Note :=
  let hospital_data := getHospitalD st hid
  let all_patient_notes := hospital_data.notes.filter (fun n => n.patient_id = patient_id)
  match cu with
  | some u =>
    if u.role = "clinician" then
      let patient_data := lookupA (userKey patient_id "patient") hospital_data.users
      let assigned :=
        match patient_data with
        | none => []
        | some p => p.assigned_clinicians.getD []
      if u.username ∈ assigned then
        all_patient_notes.filter (fun n => !(n.source = "patient" && n.is_private))
      else []
    else all_patient_notes
  | none => all_patient_notes

/-- Python `needle in haystack` on strings: `needle` occurs as a contiguous
substring of `haystack`. -/
def strContains (haystack needle : String) : Bool :=
  decide (needle.toList <:+: haystack.toList)

/-- `CareLogService.search_notes` (auth.py 656-678): case-insensitive
substring match over the notes and diagnoses text of the already
access-filtered note list. -/
def search_notes (cu : Option CUser) (st : Store) (hid patient_id search_term : String) :
    List Note :=
  let all_notes := get_notes_for_patient cu st hid patient_id
  if search_term = "" then all_notes
  else
    let term := search_term.toLower
    all_notes.filter (fun n =>
      strContains n.notes.toLower term || strContains n.diagnoses.toLower term)

/-- `CareLogService.add_note` (auth.py 204-218): appends the note to the
hospital's note list and, when the note is patient-sourced with pain 10,
appends one alert built from the note. -/
def add_note (st : Store) (note : Note) (hid : String) : Store :=
  match lookupA hid st.hospitals with
  | none => st
  | some h =>
    let h := { h with notes := h.notes ++ [note] }
    let h :=
      if note.pain = 10 ∧ note.source = "patient" then
        { h with alerts := h.alerts ++
            [{ alert_id := note.note_id, patient_id := note.patient_id,
               timestamp := note.timestamp, status := "new" }] }
      else h
    { st with hospitals := setA hid h st.hospitals }

/-- `CareLogService.delete_note` (auth.py 340-354). -/
def delete_note (st : Store) (note_id hid : String) : Store × Bool :=
  match lookupA hid st.hospitals with
  | none => (st, false)
  | some h =>
    let h1 := { h with notes := h.notes.filter (fun n => n.note_id ≠ note_id) }
    ({ st with hospitals := setA hid h1 st.hospitals }, true)

/-- `CareLogService.dismiss_alert` (auth.py 692-705).  Line 702 reads the
alert list defensively with `.get(hospital_id, {})`, but line 703 assigns
through `self._data['hospitals'][hospital_id]` directly, so an unknown
hospital id raises `KeyError`; the raise is modelled as `Except.error`. -/
def dismiss_alert (st : Store) (hid alert_id : String) : Except String (Store × Bool) :=
  let alerts := (getHospitalD st hid).alerts
  match lookupA hid st.hospitals with
  | none => Except.error "KeyError"
  | some h =>
    let h1 := { h with alerts := alerts.filter (fun a => a.alert_id ≠ alert_id) }
    Except.ok ({ st with hospitals := setA hid h1 st.hospitals }, true)

/-- `CareLogService._is_strong_password` (auth.py 145-153). -/
def is_strong_password (password : String) : Bool :=
  if password.length < 8 then false
  else
    let cs := password.toList
    cs.any Char.isUpper && cs.any Char.isLower && cs.any Char.isDigit &&
      cs.any (fun c => !c.isAlphanum)

/-- The return value of `register_user`: the sentinel strings
`'weak_password'`, `'hospital_not_found'`, `'pending'`, and the booleans
`True` (`ok`) and `False` (`failure`). -/
inductive RegisterResult where
  | weak_password
  | hospital_not_found
  | pending
  | ok
  | failure
deriving Repr, DecidableEq

/-- `CareLogService.register_user` (auth.py 73-143).  `sha256Hex` abstracts
`hashlib.sha256(s.encode()).hexdigest()`; `salt` is the fresh
`os.urandom(16).hex()` value. -/
def register_user (sha256Hex : String → String) (salt : String) (st : Store)
    (username password role hid full_name dob sex pronouns bio : String) :
    Store × RegisterResult :=
  if !(is_strong_password password) then (st, RegisterResult.weak_password)
  else
    let is_new_hospital := !(hospitalExists st hid)
    if is_new_hospital ∧ role ≠ "admin" then (st, RegisterResult.hospital_not_found)
    else
      let st1 :=
        if is_new_hospital then
          { st with hospitals := setA hid emptyHospital st.hospitals }
        else st
      let h := getHospitalD st1 hid
      let key := userKey username role
      if hasKeyA key h.users then (st1, RegisterResult.failure)
      else
        let status :=
          if (role = "admin" ∨ role = "clinician") ∧ ¬ is_new_hospital then "pending"
          else "approved"
        let u : UserRec :=
          { username, password_hash := sha256Hex (salt ++ password), role, salt, status,
            full_name, dob, sex, pronouns, bio, assigned_clinicians := some [] }
        let st2 := { st1 with hospitals := setA hid { h with users := setA key u h.users } st1.hospitals }
        if status = "pending" then (st2, RegisterResult.pending)
        else (st2, RegisterResult.ok)

/-- `CareLogService.approve_user` (auth.py 439-456). -/
def approve_user (st : Store) (username role hid : String) : Store × Bool :=
  match lookupA hid st.hospitals with
  | none => (st, false)
  | some h =>
    let key := userKey username role
    match lookupA key h.users with
    | none => (st, false)
    | some u =>
      let u1 : UserRec := { u with status := "approved" }
      let h1 := { h with users := setA key u1 h.users }
      ({ st with hospitals := setA hid h1 st.hospitals }, true)

/-- The `details` dictionary accepted by `update_user_profile`; `none` models
an absent key. -/
structure ProfileDetails where
  full_name : Option String
  dob : Option String
  sex : Option String
  pronouns : Option String
  bio : Option String
  new_password : Option String
deriving Repr, DecidableEq

/-- `CareLogService.update_user_profile` (auth.py 458-491).  The password is
replaced whenever `details['new_password']` is present and truthy (any
non-empty string); no strength check is performed here. -/
def update_user_profile (sha256Hex : String → String) (newSalt : String) (st : Store)
    (hid username role : String) (details : ProfileDetails) : Store × Bool :=
  match lookupA hid st.hospitals with
  | none => (st, false)
  | some h =>
    let key := userKey username role
    match lookupA key h.users with
    | none => (st, false)
    | some u =>
      let u1 := { u with
        full_name := details.full_name.getD u.full_name,
        dob := details.dob.getD u.dob,
        sex := details.sex.getD u.sex,
        pronouns := details.pronouns.getD u.pronouns,
        bio := details.bio.getD u.bio }
      let u2 :=
        match details.new_password with
        | some pw =>
          if pw ≠ "" then
            { u1 with salt := newSalt, password_hash := sha256Hex (newSalt ++ pw) }
          else u1
        | none => u1
      let h1 := { h with users := setA key u2 h.users }
      ({ st with hospitals := setA hid h1 st.hospitals }, true)

/-- `CareLogService.assign_clinician_to_patient` (auth.py 614-634): appends
the clinician only when not already present. -/
def assign_clinician_to_patient (st : Store) (hid patient_username clinician_username : String) :
    Store × Bool :=
  match lookupA hid st.hospitals with
  | none => (st, false)
  | some h =>
    let key := userKey patient_username "patient"
    match lookupA key h.users with
    | none => (st, false)
    | some p =>
      let cur := p.assigned_clinicians.getD []
      if clinician_username ∈ cur then (st, false)
      else
        let p1 := { p with assigned_clinicians := some (cur ++ [clinician_username]) }
        let h1 := { h with users := setA key p1 h.users }
        ({ st with hospitals := setA hid h1 st.hospitals }, true)

/-- `CareLogService.unassign_clinician_from_patient` (auth.py 636-654). -/
def unassign_clinician_from_patient (st : Store) (hid patient_username clinician_username : String) :
    Store × Bool :=
  match lookupA hid st.hospitals with
  | none => (st, false)
  | some h =>
    let key := userKey patient_username "patient"
    match lookupA key h.users with
    | none => (st, false)
    | some p =>
      match p.assigned_clinicians with
      | none => (st, false)
      | some l =>
        if clinician_username ∈ l then
          let p1 := { p with assigned_clinicians := some (l.erase clinician_username) }
          let h1 := { h with users := setA key p1 h.users }
          ({ st with hospitals := setA hid h1 st.hospitals }, true)
        else (st, false)

/-- The clinician-deletion pass over one user record (auth.py 551-555):
`assigned.remove(username)` removes the first occurrence, guarded by
`if assigned and username in assigned`. -/
def stripAssignment (username : String) (u : UserRec) : UserRec :=
  if u.role = "patient" then
    match u.assigned_clinicians with
    | some l =>
      if l ≠ [] ∧ username ∈ l then { u with assigned_clinicians := some (l.erase username) }
      else u
    | none => u
  else u

/-- `CareLogService.delete_user` (auth.py 512-586): removes the user record,
refuses self-deletion, and cascades per role over notes, assignments and chat
threads. -/
def delete_user (cu : Option CUser) (st : Store) (hid username role : String) :
    Store × Bool :=
  match lookupA hid st.hospitals with
  | none => (st, false)
  | some h =>
    let key := userKey username role
    let is_self : Bool :=
      match cu with
      | some u => u.username == username && u.role == role
      | none => false
    if !(hasKeyA key h.users) then (st, false)
    else if is_self then (st, false)
    else
      let users := eraseA key h.users
      let chats := h.chats
      let h1 :=
        if role = "patient" then
          { h with
            users,
            notes := h.notes.filter (fun n => n.patient_id ≠ username),
            chats := { general := eraseA username chats.general,
                       direct := eraseA username chats.direct } }
        else if role = "clinician" then
          { h with
            users := users.map (fun kv => (kv.1, stripAssignment username kv.2)),
            notes := h.notes.filter (fun n => !(n.author_id = username && n.source = "clinician")),
            chats := { general := chats.general.map
                         (fun kv => (kv.1, kv.2.filter (fun m => m.sender ≠ username))),
                       direct := chats.direct.map (fun kv => (kv.1, eraseA username kv.2)) } }
        else
          { h with
            users,
            chats := { general := chats.general.map
                         (fun kv => (kv.1, kv.2.filter (fun m => m.sender ≠ username))),
                       direct := chats.direct.map
                         (fun kv => (kv.1, kv.2.map
                           (fun cv => (cv.1, cv.2.filter (fun m => m.sender ≠ username))))) } }
      ({ st with hospitals := setA hid h1 st.hospitals }, true)

/-- The whitespace characters stripped by Python `str.strip()` with no
argument (ASCII part; the unicode whitespace Python would also strip plays
no role here). -/
def pyIsSpace (c : Char) : Bool :=
  c = ' ' ∨ c = '\t' ∨ c = '\n' ∨ c = '\r' ∨ c = '\x0b' ∨ c = '\x0c'

/-- Python `s.strip()`: removes leading and trailing whitespace. -/
def pyStrip (s : String) : String :=
  String.mk (((s.data.dropWhile pyIsSpace).reverse.dropWhile pyIsSpace).reverse)

/-- Python `d.setdefault(k, v)`: returns the stored value, inserting `v` at
the end when the key is absent. -/
def setdefaultA {α : Type} (k : String) (v : α) (l : List (String × α)) :
    List (String × α) × α :=
  match lookupA k l with
  | some v' => (l, v')
  | none => (l ++ [(k, v)], v)

/-- `ChatService._ensure_chat_store` + `_ensure_general_thread`
(chat.py 32-56): creates the hospital and the patient's general thread when
missing; returns the updated store together with the thread. -/
def ensure_general_thread (st : Store) (hid patient_username : String) :
    Store × List Message :=
  let (hospitals1, h) := setdefaultA hid emptyHospital st.hospitals
  let (general1, thread) := setdefaultA patient_username [] h.chats.general
  let h1 := { h with chats := { h.chats with general := general1 } }
  ({ hospitals := setA hid h1 hospitals1 }, thread)

/-- `ChatService._ensure_chat_store` + `_ensure_direct_thread`
(chat.py 32-63). -/
def ensure_direct_thread (st : Store) (hid patient_username clinician_username : String) :
    Store × List Message :=
  let (hospitals1, h) := setdefaultA hid emptyHospital st.hospitals
  let (direct1, pthreads) := setdefaultA patient_username [] h.chats.direct
  let (pthreads1, thread) := setdefaultA clinician_username [] pthreads
  let h1 := { h with chats := { h.chats with direct := setA patient_username pthreads1 direct1 } }
  ({ hospitals := setA hid h1 hospitals1 }, thread)

/-- `ChatService.add_general_message` (chat.py 65-99).  `message_id` and
`timestamp` are the generated uuid and UTC timestamp of `_build_message`. -/
def add_general_message (st : Store)
    (hid patient_username sender_username sender_role message : String)
    (message_id timestamp : String) : Store × Option Message :=
  let text := pyStrip message
  if text = "" then (st, none)
  else
    let (st1, thread) := ensure_general_thread st hid patient_username
    let entry : Message :=
      { message_id, timestamp, sender := sender_username, sender_role, text,
        channel := "general", patient_username, clinician_username := none }
    let h := getHospitalD st1 hid
    let h1 := { h with chats :=
      { h.chats with general := setA patient_username (thread ++ [entry]) h.chats.general } }
    ({ hospitals := setA hid h1 st1.hospitals }, some entry)

/-- `ChatService.add_direct_message` (chat.py 141-184): rejects blank text,
then rejects the write when the patient's assignment list is non-empty and
does not contain the named clinician, then appends. -/
def add_direct_message (st : Store)
    (hid patient_username clinician_username sender_username sender_role message : String)
    (message_id timestamp : String) : Store × Option Message :=
  let text := pyStrip message
  if text = "" then (st, none)
  else
    let assigned := get_assigned_clinicians_for_patient st hid patient_username
    if assigned ≠ [] ∧ clinician_username ∉ assigned then (st, none)
    else
      let (st1, thread) := ensure_direct_thread st hid patient_username clinician_username
      let entry : Message :=
        { message_id, timestamp, sender := sender_username, sender_role, text,
          channel := "direct", patient_username, clinician_username := some clinician_username }
      let h := getHospitalD st1 hid
      let pthreads := (lookupA patient_username h.chats.direct).getD []
      let direct1 := setA patient_username (setA clinician_username (thread ++ [entry]) pthreads) h.chats.direct
      let h1 := { h with chats := { h.chats with direct := direct1 } }
      ({ hospitals := setA hid h1 st1.hospitals }, some entry)

/-- Python slice `l[-limit:]` for an `int` limit.  For a positive limit this
is the last `limit` elements; `-0 == 0`, so limit `0` yields the whole list;
a negative limit drops `-limit` elements from the front. -/
def pyTail {α : Type} (l : List α) (limit : Int) : List α :=
  if 0 < limit then l.drop (l.length - limit.toNat) else l.drop (-limit).toNat

/-- The comparator of `thread.sort(key=lambda item: item.get("timestamp", ""))`. -/
def msgLe (a b : Message) : Bool :=
  decide (a.timestamp ≤ b.timestamp)

/-- Stable insertion of `a` into a list sorted by `le`: `a` goes after every
element `b` with `le b a`, so elements with equal keys keep their relative
order. -/
def insertSorted {α : Type} (le : α → α → Bool) (a : α) : List α → List α
  | [] => [a]
  | b :: l => if le b a then b :: insertSorted le a l else a :: b :: l

/-- Model of Python `list.sort(key=...)`.  Python's sort is a stable sort by
the key, and the stable sort of a list under a total preorder is unique, so
insertion sort computes the same list. -/
def stableSort {α : Type} (le : α → α → Bool) (l : List α) : List α :=
  l.foldl (fun acc x => insertSorted le x acc) []

/-- `ChatService.get_general_messages` (chat.py 119-139): sorts a copy of the
thread by timestamp and applies the optional tail limit `thread[-limit:]`. -/
def get_general_messages (st : Store) (hid patient_username : String)
    (limit : Option Int) : Store × List Message :=
  let (st1, thread) := ensure_general_thread st hid patient_username
  let sorted := stableSort msgLe thread
  match limit with
  | none => (st1, sorted)
  | some n => (st1, pyTail sorted n)

/-- `ChatService.get_direct_messages` (chat.py 186-208). -/
def get_direct_messages (st : Store) (hid patient_username clinician_username : String)
    (limit : Option Int) : Store × List Message :=
  let (st1, thread) := ensure_direct_thread st hid patient_username clinician_username
  let sorted := stableSort msgLe thread
  match limit with
  | none => (st1, sorted)
  | some n => (st1, pyTail sorted n)

/-- `ChatService.clear_general_messages` (chat.py 101-117). -/
def clear_general_messages (st : Store) (hid patient_username : String) : Store × Bool :=
  let (hospitals1, h) := setdefaultA hid emptyHospital st.hospitals
  if hasKeyA patient_username h.chats.general then
    let h1 := { h with chats :=
      { h.chats with general := setA patient_username [] h.chats.general } }
    ({ hospitals := setA hid h1 hospitals1 }, true)
  else ({ hospitals := setA hid h hospitals1 }, false)

/-- `ChatService.clear_direct_messages` (chat.py 210-228). -/
def clear_direct_messages (st : Store) (hid patient_username clinician_username : String) :
    Store × Bool :=
  let (hospitals1, h) := setdefaultA hid emptyHospital st.hospitals
  let (direct1, pthreads) := setdefaultA patient_username [] h.chats.direct
  if hasKeyA clinician_username pthreads then
    let h1 := { h with chats :=
      { h.chats with direct := setA patient_username (setA clinician_username [] pthreads) direct1 } }
    ({ hospitals := setA hid h1 hospitals1 }, true)
  else
    let h1 := { h with chats := { h.chats with direct := direct1 } }
    ({ hospitals := setA hid h1 hospitals1 }, false)

/-- A partial note-field dictionary as passed to `update_note`; `none`
models an absent key, so only the keys present overwrite the note
(`note.update(updated_data)`; `dict.update` cannot delete keys). -/
structure NoteUpdate where
  note_id : Option String
  hospital_id : Option String
  patient_id : Option String
  author_id : Option String
  timestamp : Option String
  mood : Option Int
  pain : Option Int
  appetite : Option Int
  notes : Option String
  diagnoses : Option String
  source : Option String
  is_private : Option Bool
  hidden_from_patient : Option Bool
  ai_feedback : Option Feedback
deriving Repr, DecidableEq

/-- `note.update(updated_data)`: overwrite exactly the keys present. -/
def applyNoteUpdate (upd : NoteUpdate) (n : Note) : Note :=
  { note_id := upd.note_id.getD n.note_id,
    hospital_id := upd.hospital_id.getD n.hospital_id,
    patient_id := upd.patient_id.getD n.patient_id,
    author_id := upd.author_id.getD n.author_id,
    timestamp := upd.timestamp.getD n.timestamp,
    mood := upd.mood.getD n.mood,
    pain := upd.pain.getD n.pain,
    appetite := upd.appetite.getD n.appetite,
    notes := upd.notes.getD n.notes,
    diagnoses := upd.diagnoses.getD n.diagnoses,
    source := upd.source.getD n.source,
    is_private := upd.is_private.getD n.is_private,
    hidden_from_patient := upd.hidden_from_patient.getD n.hidden_from_patient,
    ai_feedback :=
      match upd.ai_feedback with
      | some f => some f
      | none => n.ai_feedback }

/-- The scan of `update_note`: merge `upd` into the first note whose
`note_id` matches and stop there, reporting whether a note was found. -/
def updateFirstNote (note_id : String) (upd : NoteUpdate) : List Note → List Note × Bool
  | [] => ([], false)
  | n :: rest =>
    if n.note_id = note_id then (applyNoteUpdate upd n :: rest, true)
    else
      let (rest', b) := updateFirstNote note_id upd rest
      (n :: rest', b)

/-- `CareLogService.update_note` (auth.py 493-510): merges the given fields
into the first note with the given id; a missing hospital yields an empty
scan and `False` with no change. -/
def update_note (st : Store) (hid note_id : String) (upd : NoteUpdate) : Store × Bool :=
  match lookupA hid st.hospitals with
  | none => (st, false)
  | some h =>
    let (notes', b) := updateFirstNote note_id upd h.notes
    if b then
      ({ st with hospitals := setA hid { h with notes := notes' } st.hospitals }, true)
    else (st, false)

/-- The scan of `generate_and_store_ai_feedback`: at each note whose id
matches, the external `generate_feedback` result `fb` is consulted; a truthy
(non-empty) text stores a pending feedback object and stops, otherwise the
loop continues. -/
def genFeedbackNotes (note_id : String) (fb : Option String) : List Note → List Note × Bool
  | [] => ([], false)
  | n :: rest =>
    if n.note_id = note_id then
      match fb with
      | some t =>
        if t ≠ "" then
          ({ n with ai_feedback := some { text := t, status := "pending" } } :: rest, true)
        else
          let (rest', b) := genFeedbackNotes note_id fb rest
          (n :: rest', b)
      | none =>
        let (rest', b) := genFeedbackNotes note_id fb rest
        (n :: rest', b)
    else
      let (rest', b) := genFeedbackNotes note_id fb rest
      (n :: rest', b)

/-- `CareLogService.generate_and_store_ai_feedback` (auth.py 220-245).  `fb`
is the result of the external `generate_feedback` collaborator (`none` or an
empty string are falsy and store nothing). -/
def generate_and_store_ai_feedback (st : Store) (note_id hid : String)
    (fb : Option String) : Store × Bool :=
  match lookupA hid st.hospitals with
  | none => (st, false)
  | some h =>
    let (notes', b) := genFeedbackNotes note_id fb h.notes
    if b then
      ({ st with hospitals := setA hid { h with notes := notes' } st.hospitals }, true)
    else (st, false)

/-- The scan of `approve_ai_feedback`: the first matching note that carries a
feedback object gets its text overwritten and status set to `approved`. -/
def approveFeedbackNotes (note_id txt : String) : List Note → List Note × Bool
  | [] => ([], false)
  | n :: rest =>
    if n.note_id = note_id then
      match n.ai_feedback with
      | some _ => ({ n with ai_feedback := some { text := txt, status := "approved" } } :: rest, true)
      | none =>
        let (rest', b) := approveFeedbackNotes note_id txt rest
        (n :: rest', b)
    else
      let (rest', b) := approveFeedbackNotes note_id txt rest
      (n :: rest', b)

/-- `CareLogService.approve_ai_feedback` (auth.py 300-319). -/
def approve_ai_feedback (st : Store) (note_id hid edited_feedback_text : String) :
    Store × Bool :=
  match lookupA hid st.hospitals with
  | none => (st, false)
  | some h =>
    let (notes', b) := approveFeedbackNotes note_id edited_feedback_text h.notes
    if b then
      ({ st with hospitals := setA hid { h with notes := notes' } st.hospitals }, true)
    else (st, false)

/-- The scan of `reject_ai_feedback`: the first matching note that carries a
feedback object has it deleted. -/
def rejectFeedbackNotes (note_id : String) : List Note → List Note × Bool
  | [] => ([], false)
  | n :: rest =>
    if n.note_id = note_id then
      match n.ai_feedback with
      | some _ => ({ n with ai_feedback := none } :: rest, true)
      | none =>
        let (rest', b) := rejectFeedbackNotes note_id rest
        (n :: rest', b)
    else
      let (rest', b) := rejectFeedbackNotes note_id rest
      (n :: rest', b)

/-- `CareLogService.reject_ai_feedback` (auth.py 321-338). -/
def reject_ai_feedback (st : Store) (note_id hid : String) : Store × Bool :=
  match lookupA hid st.hospitals with
  | none => (st, false)
  | some h =>
    let (notes', b) := rejectFeedbackNotes note_id h.notes
    if b then
      ({ st with hospitals := setA hid { h with notes := notes' } st.hospitals }, true)
    else (st, false)

/-- `ChatService.list_general_patients` (chat.py 230-246): runs
`_ensure_chat_store` (which creates the hospital when missing), then lists
patient usernames with a general thread, most recent activity first
(`sort(key=item[1] or "", reverse=True)` — a stable descending sort). -/
def list_general_patients (st : Store) (hid : String) : Store × List String :=
  let (hospitals1, h) := setdefaultA hid emptyHospital st.hospitals
  let patients := h.chats.general.map (fun kv =>
    (kv.1, match kv.2.getLast? with
           | some m => m.timestamp
           | none => ""))
  let sorted := stableSort (fun a b => decide ((b.2 : String) ≤ a.2)) patients
  ({ hospitals := hospitals1 }, sorted.map Prod.fst)

/-- `ChatService.list_direct_threads_for_clinician` (chat.py 248-267). -/
def list_direct_threads_for_clinician (st : Store) (hid clinician_username : String) :
    Store × List String :=
  let (hospitals1, h) := setdefaultA hid emptyHospital st.hospitals
  let patients := h.chats.direct.filterMap (fun kv =>
    match lookupA clinician_username kv.2 with
    | some messages =>
      some (kv.1, match messages.getLast? with
                  | some m => m.timestamp
                  | none => "")
    | none => none)
  let sorted := stableSort (fun a b => decide ((b.2 : String) ≤ a.2)) patients
  ({ hospitals := hospitals1 }, sorted.map Prod.fst)

/-! ### Association-list lemmas -/

theorem lookupA_cons {α : Type} (a k : String) (b : α) (tl : List (String × α)) :
    lookupA k ((a, b) :: tl) = if a = k then some b else lookupA k tl := rfl

theorem setA_cons {α : Type} (a k : String) (b v : α) (tl : List (String × α)) :
    setA k v ((a, b) :: tl) = if a = k then (k, v) :: tl else (a, b) :: setA k v tl := rfl

theorem eraseA_cons {α : Type} (a k : String) (b : α) (tl : List (String × α)) :
    eraseA k ((a, b) :: tl) = if a = k then tl else (a, b) :: eraseA k tl := rfl

theorem lookupA_setA_self {α : Type} (k : String) (v : α) (l : List (String × α)) :
    lookupA k (setA k v l) = some v := by
  induction l with
  | nil => simp [setA, lookupA]
  | cons hd tl ih =>
    obtain ⟨a, b⟩ := hd
    by_cases h : a = k
    · rw [setA_cons, if_pos h, lookupA_cons, if_pos rfl]
    · rw [setA_cons, if_neg h, lookupA_cons, if_neg h, ih]

theorem lookupA_setA_ne {α : Type} {k k' : String} (v : α) (l : List (String × α))
    (h : k' ≠ k) : lookupA k' (setA k v l) = lookupA k' l := by
  induction l with
  | nil =>
    show (if k = k' then some v else lookupA k' []) = lookupA k' []
    rw [if_neg (Ne.symm h)]
  | cons hd tl ih =>
    obtain ⟨a, b⟩ := hd
    by_cases ha : a = k
    · subst ha
      rw [setA_cons, if_pos rfl, lookupA_cons, lookupA_cons, if_neg (Ne.symm h),
        if_neg (Ne.symm h)]
    · by_cases ha' : a = k'
      · rw [setA_cons, if_neg ha, lookupA_cons, if_pos ha', lookupA_cons, if_pos ha']
      · rw [setA_cons, if_neg ha, lookupA_cons, if_neg ha', lookupA_cons, if_neg ha', ih]

theorem mem_of_lookupA {α : Type} {k : String} {v : α} {l : List (String × α)}
    (h : lookupA k l = some v) : (k, v) ∈ l := by
  induction l with
  | nil => exact absurd h (by simp [lookupA])
  | cons hd tl ih =>
    obtain ⟨a, b⟩ := hd
    by_cases ha : a = k
    · rw [lookupA_cons, if_pos ha] at h
      have hb : b = v := by injection h
      subst hb; subst ha
      exact List.mem_cons_self _ _
    · rw [lookupA_cons, if_neg ha] at h
      exact List.mem_cons_of_mem _ (ih h)

theorem lookupA_eq_none {α : Type} {k : String} {l : List (String × α)}
    (h : k ∉ l.map Prod.fst) : lookupA k l = none := by
  induction l with
  | nil => rfl
  | cons hd tl ih =>
    obtain ⟨a, b⟩ := hd
    simp only [List.map_cons, List.mem_cons] at h
    push_neg at h
    rw [lookupA_cons, if_neg (fun hc => h.1 hc.symm)]
    exact ih h.2

theorem mem_setA {α : Type} {k' : String} {v' : α} (k : String) (v : α)
    (l : List (String × α)) (h : (k', v') ∈ setA k v l) :
    (k' = k ∧ v' = v) ∨ (k', v') ∈ l := by
  induction l with
  | nil =>
    simp only [setA, List.mem_singleton, Prod.mk.injEq] at h
    exact Or.inl h
  | cons hd tl ih =>
    obtain ⟨a, b⟩ := hd
    by_cases ha : a = k
    · rw [setA_cons, if_pos ha] at h
      rcases List.mem_cons.mp h with h | h
      · exact Or.inl (by simpa [Prod.mk.injEq] using h)
      · exact Or.inr (List.mem_cons_of_mem _ h)
    · rw [setA_cons, if_neg ha] at h
      rcases List.mem_cons.mp h with h | h
      · exact Or.inr (List.mem_cons.mpr (Or.inl h))
      · rcases ih h with h' | h'
        · exact Or.inl h'
        · exact Or.inr (List.mem_cons_of_mem _ h')

theorem mem_eraseA {α : Type} {k' : String} {v' : α} (k : String)
    (l : List (String × α)) (h : (k', v') ∈ eraseA k l) : (k', v') ∈ l := by
  induction l with
  | nil => exact absurd h (by simp [eraseA])
  | cons hd tl ih =>
    obtain ⟨a, b⟩ := hd
    by_cases ha : a = k
    · rw [eraseA_cons, if_pos ha] at h
      exact List.mem_cons_of_mem _ h
    · rw [eraseA_cons, if_neg ha] at h
      rcases List.mem_cons.mp h with h | h
      · rw [h]; exact List.mem_cons_self _ _
      · exact List.mem_cons_of_mem _ (ih h)

theorem mem_eraseA_of_ne {α : Type} {k' : String} {v' : α} {k : String}
    {l : List (String × α)} (h : (k', v') ∈ l) (hne : k' ≠ k) :
    (k', v') ∈ eraseA k l := by
  induction l with
  | nil => exact absurd h (by simp)
  | cons hd tl ih =>
    obtain ⟨a, b⟩ := hd
    by_cases ha : a = k
    · rw [eraseA_cons, if_pos ha]
      rcases List.mem_cons.mp h with h | h
      · exact absurd ((Prod.ext_iff.mp h).1.trans ha) hne
      · exact h
    · rw [eraseA_cons, if_neg ha]
      rcases List.mem_cons.mp h with h | h
      · rw [h]; exact List.mem_cons_self _ _
      · exact List.mem_cons_of_mem _ (ih h)

theorem lookupA_eraseA_ne {α : Type} {k k' : String} (l : List (String × α))
    (h : k' ≠ k) : lookupA k' (eraseA k l) = lookupA k' l := by
  induction l with
  | nil => rfl
  | cons hd tl ih =>
    obtain ⟨a, b⟩ := hd
    by_cases ha : a = k
    · rw [eraseA_cons, if_pos ha, lookupA_cons]
      have : a ≠ k' := by rw [ha]; exact Ne.symm h
      rw [if_neg this]
    · by_cases ha' : a = k'
      · rw [eraseA_cons, if_neg ha, lookupA_cons, if_pos ha', lookupA_cons, if_pos ha']
      · rw [eraseA_cons, if_neg ha, lookupA_cons, if_neg ha', lookupA_cons, if_neg ha', ih]

theorem lookupA_eraseA_self {α : Type} {k : String} {l : List (String × α)}
    (hnd : (l.map Prod.fst).Nodup) : lookupA k (eraseA k l) = none := by
  induction l with
  | nil => rfl
  | cons hd tl ih =>
    obtain ⟨a, b⟩ := hd
    simp only [List.map_cons, List.nodup_cons] at hnd
    by_cases ha : a = k
    · rw [eraseA_cons, if_pos ha]
      exact lookupA_eq_none (by rw [← ha]; exact hnd.1)
    · rw [eraseA_cons, if_neg ha, lookupA_cons, if_neg ha]
      exact ih hnd.2

/-! ### Concrete fixtures used by the counterexamples and witnesses -/

/-- A patient record for `p1`, assigned to clinician `c1`. -/
def uP1 : UserRec :=
  { username := "p1", password_hash := "ph", role := "patient", salt := "s1",
    status := "approved", full_name := "P One", dob := "2000-01-01", sex := "F",
    pronouns := "she/her", bio := "", assigned_clinicians := some ["c1"] }

/-- A second patient record, `p2`, with no assigned clinicians. -/
def uP2 : UserRec := { uP1 with username := "p2", assigned_clinicians := some [] }

/-- A clinician record for `c1`. -/
def uC1 : UserRec := { uP1 with username := "c1", role := "clinician", assigned_clinicians := some [] }

/-- A clinician-authored note on `p1` marked hidden-from-patient. -/
def nHidden : Note :=
  { note_id := "n1", hospital_id := "H1", patient_id := "p1", author_id := "c1",
    timestamp := "2024-01-01T10:00:00", mood := 5, pain := 3, appetite := 5,
    notes := "obs", diagnoses := "dx", source := "clinician",
    is_private := false, hidden_from_patient := true, ai_feedback := none }

/-- A patient-authored private note by `p1`. -/
def nPrivate : Note :=
  { nHidden with
    note_id := "n2", author_id := "p1", source := "patient",
    is_private := true, hidden_from_patient := false }

/-- A chat message sent by `c1` on `p1`'s general thread. -/
def msgA : Message :=
  { message_id := "m1", timestamp := "2024-01-01T09:00:00Z", sender := "c1",
    sender_role := "clinician", text := "hi", channel := "general",
    patient_username := "p1", clinician_username := none }

/-- A direct-channel message between `p1` and `c1`. -/
def msgD : Message :=
  { msgA with message_id := "m2", channel := "direct", clinician_username := some "c1" }

/-- A hospital `H1` holding the fixtures above. -/
def demoHospital : Hospital :=
  { users := [(userKey "p1" "patient", uP1), (userKey "p2" "patient", uP2),
              (userKey "c1" "clinician", uC1)],
    notes := [nHidden, nPrivate],
    alerts := [],
    chats := { general := [("p1", [msgA])], direct := [("p1", [("c1", [msgD])])] } }

/-- A store holding just the demo hospital. -/
def demoStore : Store := { hospitals := [("H1", demoHospital)] }

/-! ### Equation lemmas for the access-control filter -/

theorem get_notes_clinician_eq (u : CUser) (st : Store) (hid pid : String)
    (hrole : u.role = "clinician") :
    get_notes_for_patient (some u) st hid pid =
      (if u.username ∈ get_assigned_clinicians_for_patient st hid pid then
        ((getHospitalD st hid).notes.filter (fun n => n.patient_id = pid)).filter
          (fun n => !(n.source = "patient" && n.is_private))
      else []) := by
  simp only [get_notes_for_patient, get_assigned_clinicians_for_patient, hrole]
  rw [if_pos trivial]

theorem get_notes_not_clinician_eq (cu : Option CUser) (st : Store) (hid pid : String)
    (h : ∀ u, cu = some u → u.role ≠ "clinician") :
    get_notes_for_patient cu st hid pid =
      (getHospitalD st hid).notes.filter (fun n => n.patient_id = pid) := by
  cases cu with
  | none => rfl
  | some u =>
    simp only [get_notes_for_patient]
    rw [if_neg (h u rfl)]

/-- C1 counterexample: in the demo store, the clinician-authored note `n1` is
marked hidden-from-patient, yet `get_notes_for_patient` called with the
patient `p1` as current user returns it — the claim that a patient-role
caller never receives such a note is false on the code. -/
theorem C1_counterexample :
    nHidden.source = "clinician" ∧ nHidden.hidden_from_patient = true ∧
    nHidden ∈ get_notes_for_patient (some ⟨"p1", "patient"⟩) demoStore "H1" "p1" := by
  decide

/-- C1 (amended): `get_notes_for_patient` performs no `hidden_from_patient`
filtering at all.  A clinician-authored note marked hidden-from-patient is
returned to an admin caller and to an assigned clinician caller, and it is
equally returned to a caller whose role is patient; hiding it from the
patient is left to the presentation layer. -/
theorem C1_amended_thm (st : Store) (hid pid : String) (n : Note)
    (adminU clin patientU : CUser)
    (hmem : n ∈ (getHospitalD st hid).notes) (hpid : n.patient_id = pid)
    (hsrc : n.source = "clinician") (hhidden : n.hidden_from_patient = true)
    (hra : adminU.role = "admin") (hrc : clin.role = "clinician")
    (hassigned : clin.username ∈ get_assigned_clinicians_for_patient st hid pid)
    (hrp : patientU.role = "patient") :
    n ∈ get_notes_for_patient (some adminU) st hid pid
    ∧ n ∈ get_notes_for_patient (some clin) st hid pid
    ∧ n ∈ get_notes_for_patient (some patientU) st hid pid := by
  have hbase : n ∈ (getHospitalD st hid).notes.filter (fun n => n.patient_id = pid) :=
    List.mem_filter.mpr ⟨hmem, by simp [hpid]⟩
  refine ⟨?_, ?_, ?_⟩
  · rw [get_notes_not_clinician_eq _ _ _ _ (fun u hu => by
      cases hu; rw [hra]; decide)]
    exact hbase
  · rw [get_notes_clinician_eq clin st hid pid hrc, if_pos hassigned]
    exact List.mem_filter.mpr ⟨hbase, by simp [hsrc]⟩
  · rw [get_notes_not_clinician_eq _ _ _ _ (fun u hu => by
      cases hu; rw [hrp]; decide)]
    exact hbase

/-- C1 amended-claim witness at the demo store. -/
theorem C1_witness :
    nHidden ∈ get_notes_for_patient (some ⟨"a1", "admin"⟩) demoStore "H1" "p1"
    ∧ nHidden ∈ get_notes_for_patient (some ⟨"c1", "clinician"⟩) demoStore "H1" "p1"
    ∧ nHidden ∈ get_notes_for_patient (some ⟨"p1", "patient"⟩) demoStore "H1" "p1" :=
  C1_amended_thm demoStore "H1" "p1" nHidden ⟨"a1", "admin"⟩ ⟨"c1", "clinician"⟩
    ⟨"p1", "patient"⟩ (by decide) (by decide) (by decide) (by decide) (by decide)
    (by decide) (by decide) (by decide)

/-- C2 counterexample: `p1`'s private patient note `n2` is returned by
`get_notes_for_patient` when the current user is the *different* patient
`p2` — the claim that a non-authoring patient does not receive it is false
on the code, which checks only the caller's role. -/
theorem C2_counterexample :
    nPrivate.source = "patient" ∧ nPrivate.is_private = true ∧
    nPrivate ∈ get_notes_for_patient (some ⟨"p2", "patient"⟩) demoStore "H1" "p1" := by
  decide

/-- C2 (amended): a patient-authored note with `is_private` set is returned
by `get_notes_for_patient` to admins and to every caller whose role is
patient — the caller's identity is never compared with the authoring
patient — while a clinician caller (assigned or not) never receives it, and
consequently never receives it from `search_notes` either. -/
theorem C2_amended_thm (st : Store) (hid pid term : String) (n : Note)
    (caller : CUser)
    (hmem : n ∈ (getHospitalD st hid).notes) (hpid : n.patient_id = pid)
    (hsrc : n.source = "patient") (hpriv : n.is_private = true) :
    (caller.role = "admin" ∨ caller.role = "patient" →
      n ∈ get_notes_for_patient (some caller) st hid pid)
    ∧ (caller.role = "clinician" →
      n ∉ get_notes_for_patient (some caller) st hid pid
      ∧ n ∉ search_notes (some caller) st hid pid term) := by
  constructor
  · intro hrole
    rw [get_notes_not_clinician_eq _ _ _ _ (fun u hu => by
      cases hu
      rcases hrole with h | h <;> rw [h] <;> decide)]
    exact List.mem_filter.mpr ⟨hmem, by simp [hpid]⟩
  · intro hrole
    have hnot : n ∉ get_notes_for_patient (some caller) st hid pid := by
      rw [get_notes_clinician_eq caller st hid pid hrole]
      by_cases hass : caller.username ∈ get_assigned_clinicians_for_patient st hid pid
      · rw [if_pos hass]
        intro hin
        have := (List.mem_filter.mp hin).2
        rw [hsrc, hpriv] at this
        simp at this
      · rw [if_neg hass]
        exact List.not_mem_nil n
    refine ⟨hnot, ?_⟩
    intro hin
    apply hnot
    unfold search_notes at hin
    by_cases hterm : term = ""
    · rw [if_pos hterm] at hin
      exact hin
    · rw [if_neg hterm] at hin
      exact (List.mem_filter.mp hin).1

/-- C2 amended-claim witness at the demo store. -/
theorem C2_witness :
    nPrivate ∈ get_notes_for_patient (some ⟨"p2", "patient"⟩) demoStore "H1" "p1"
    ∧ nPrivate ∉ get_notes_for_patient (some ⟨"c1", "clinician"⟩) demoStore "H1" "p1"
    ∧ nPrivate ∉ search_notes (some ⟨"c1", "clinician"⟩) demoStore "H1" "p1" "dx" :=
  ⟨(C2_amended_thm demoStore "H1" "p1" "dx" nPrivate ⟨"p2", "patient"⟩
      (by decide) (by decide) (by decide) (by decide)).1 (Or.inr (by decide)),
   ((C2_amended_thm demoStore "H1" "p1" "dx" nPrivate ⟨"c1", "clinician"⟩
      (by decide) (by decide) (by decide) (by decide)).2 (by decide)).1,
   ((C2_amended_thm demoStore "H1" "p1" "dx" nPrivate ⟨"c1", "clinician"⟩
      (by decide) (by decide) (by decide) (by decide)).2 (by decide)).2⟩

/-- C3: `dismiss_alert` on a hospital id that is not in the store raises
`KeyError` (line 703 indexes `self._data['hospitals'][hospital_id]`
directly), instead of returning a false/empty result as the spec and the
method's own docstring (`Returns: bool`) promise. -/
theorem C3_thm (st : Store) (hid aid : String)
    (h : hospitalExists st hid = false) :
    dismiss_alert st hid aid = Except.error "KeyError" := by
  unfold dismiss_alert
  have hnone : lookupA hid st.hospitals = none := by
    unfold hospitalExists hasKeyA at h
    exact Option.not_isSome_iff_eq_none.mp (by rw [h]; exact Bool.false_ne_true ∘ id)
  rw [hnone]

/-- C3 witness: the failing input — dismissing any alert in an absent
hospital of the empty store raises. -/
theorem C3_witness :
    hospitalExists emptyStore "H9" = false
    ∧ dismiss_alert emptyStore "H9" "a1" = Except.error "KeyError" :=
  ⟨by decide, C3_thm emptyStore "H9" "a1" (by decide)⟩

/-- C4: adding a patient-sourced note with pain 10 to an existing hospital
appends exactly one alert, whose alert id, patient id and timestamp are the
note's and whose status is `new`; a note with pain below 10, or a
clinician-sourced note, leaves the alert list unchanged. -/
theorem C4_thm (st : Store) (hid : String) (note : Note)
    (hex : hospitalExists st hid = true) :
    ((note.pain = 10 ∧ note.source = "patient") →
      (getHospitalD (add_note st note hid) hid).alerts =
        (getHospitalD st hid).alerts ++
          [{ alert_id := note.note_id, patient_id := note.patient_id,
             timestamp := note.timestamp, status := "new" }])
    ∧ ((note.pain < 10 ∨ note.source = "clinician") →
      (getHospitalD (add_note st note hid) hid).alerts = (getHospitalD st hid).alerts) := by
  obtain ⟨h, hh⟩ : ∃ h, lookupA hid st.hospitals = some h := by
    unfold hospitalExists hasKeyA at hex
    exact Option.isSome_iff_exists.mp hex
  have hDst : getHospitalD st hid = h := by unfold getHospitalD; rw [hh]; rfl
  constructor
  · intro hcond
    simp only [add_note, hh]
    rw [if_pos hcond]
    simp only [getHospitalD, lookupA_setA_self, Option.getD_some, hh]
  · intro hcond
    have hneg : ¬(note.pain = 10 ∧ note.source = "patient") := by
      rcases hcond with h10 | hsrc
      · rintro ⟨he, _⟩
        rw [he] at h10
        exact absurd h10 (by norm_num)
      · rintro ⟨_, hp⟩
        rw [hsrc] at hp
        exact absurd hp (by decide)
    simp only [add_note, hh]
    rw [if_neg hneg]
    simp only [getHospitalD, lookupA_setA_self, Option.getD_some, hh]

/-- C4 witness: a pain-10 patient note creates one matching alert in the
demo store; a pain-3 note creates none. -/
theorem C4_witness :
    (getHospitalD (add_note demoStore { nPrivate with note_id := "n9", pain := 10 } "H1") "H1").alerts =
      [{ alert_id := "n9", patient_id := "p1",
         timestamp := "2024-01-01T10:00:00", status := "new" }]
    ∧ (getHospitalD (add_note demoStore nPrivate "H1") "H1").alerts = [] :=
  ⟨(C4_thm demoStore "H1" { nPrivate with note_id := "n9", pain := 10 }
      (by decide)).1 (by decide),
   (C4_thm demoStore "H1" nPrivate (by decide)).2 (Or.inl (by decide))⟩

/-- C5: for every store, hospital and patient, the note set seen by an admin
contains the set seen by an assigned clinician, which contains the set seen
by an unassigned clinician, and the unassigned clinician's set is empty. -/
theorem C5_thm (st : Store) (hid pid : String) (adminU clinA clinU : CUser)
    (hra : adminU.role = "admin") (hca : clinA.role = "clinician")
    (hcu : clinU.role = "clinician")
    (hass : clinA.username ∈ get_assigned_clinicians_for_patient st hid pid)
    (hun : clinU.username ∉ get_assigned_clinicians_for_patient st hid pid) :
    (∀ n, n ∈ get_notes_for_patient (some clinA) st hid pid →
      n ∈ get_notes_for_patient (some adminU) st hid pid)
    ∧ (∀ n, n ∈ get_notes_for_patient (some clinU) st hid pid →
      n ∈ get_notes_for_patient (some clinA) st hid pid)
    ∧ get_notes_for_patient (some clinU) st hid pid = [] := by
  have hempty : get_notes_for_patient (some clinU) st hid pid = [] := by
    rw [get_notes_clinician_eq clinU st hid pid hcu, if_neg hun]
  refine ⟨?_, ?_, hempty⟩
  · intro n hn
    rw [get_notes_clinician_eq clinA st hid pid hca, if_pos hass] at hn
    rw [get_notes_not_clinician_eq _ _ _ _ (fun u hu => by cases hu; rw [hra]; decide)]
    exact (List.mem_filter.mp hn).1
  · intro n hn
    rw [hempty] at hn
    exact absurd hn (List.not_mem_nil n)

/-- C5 witness at the demo store: unassigned clinician `c9` sees nothing and
the admin sees the note the assigned clinician `c1` sees. -/
theorem C5_witness :
    get_notes_for_patient (some ⟨"c9", "clinician"⟩) demoStore "H1" "p1" = []
    ∧ nHidden ∈ get_notes_for_patient (some ⟨"a1", "admin"⟩) demoStore "H1" "p1" :=
  ⟨(C5_thm demoStore "H1" "p1" ⟨"a1", "admin"⟩ ⟨"c1", "clinician"⟩ ⟨"c9", "clinician"⟩
      (by decide) (by decide) (by decide) (by decide) (by decide)).2.2,
   (C5_thm demoStore "H1" "p1" ⟨"a1", "admin"⟩ ⟨"c1", "clinician"⟩ ⟨"c9", "clinician"⟩
      (by decide) (by decide) (by decide) (by decide) (by decide)).1 nHidden (by decide)⟩

/-- C6: `add_direct_message` returns `None` and leaves the store unchanged
when the trimmed text is empty, and likewise when the patient's assignment
list is non-empty and lacks the named clinician; when the assignment list is
empty the check imposes no restriction and a non-blank message is stored. -/
theorem C6_thm (st : Store) (hid pu clin sender srole msg mid ts : String) :
    (pyStrip msg = "" →
      add_direct_message st hid pu clin sender srole msg mid ts = (st, none))
    ∧ (get_assigned_clinicians_for_patient st hid pu ≠ [] →
      clin ∉ get_assigned_clinicians_for_patient st hid pu →
      add_direct_message st hid pu clin sender srole msg mid ts = (st, none))
    ∧ (get_assigned_clinicians_for_patient st hid pu = [] → pyStrip msg ≠ "" →
      ((add_direct_message st hid pu clin sender srole msg mid ts).2).isSome = true) := by
  refine ⟨?_, ?_, ?_⟩
  · intro h
    simp only [add_direct_message, h]
    rw [if_pos trivial]
  · intro hne hnotin
    by_cases h : pyStrip msg = ""
    · simp only [add_direct_message, h]
      rw [if_pos trivial]
    · simp only [add_direct_message]
      rw [if_neg h, if_pos ⟨hne, hnotin⟩]
  · intro hemp hne
    simp only [add_direct_message]
    rw [if_neg hne, if_neg (by rw [hemp]; simp)]
    rcases hE : ensure_direct_thread st hid pu clin with ⟨st1, thread⟩
    simp [hE]

/-- C6 witness: a blank message and an unassigned-clinician message are both
rejected on the demo store, while a direct message for `p2` (empty
assignment list) is stored. -/
theorem C6_witness :
    add_direct_message demoStore "H1" "p1" "c1" "p1" "patient" "   " "m9" "t9" =
      (demoStore, none)
    ∧ add_direct_message demoStore "H1" "p1" "c9" "p1" "patient" "hello" "m9" "t9" =
      (demoStore, none)
    ∧ ((add_direct_message demoStore "H1" "p2" "c9" "p2" "patient" "hello" "m9" "t9").2).isSome = true :=
  ⟨(C6_thm demoStore "H1" "p1" "c1" "p1" "patient" "   " "m9" "t9").1 (by decide),
   (C6_thm demoStore "H1" "p1" "c9" "p1" "patient" "hello" "m9" "t9").2.1
     (by decide) (by decide),
   (C6_thm demoStore "H1" "p2" "c9" "p2" "patient" "hello" "m9" "t9").2.2
     (by decide) (by decide)⟩

theorem stripAssignment_fields (username : String) (u : UserRec) :
    (stripAssignment username u).username = u.username
    ∧ (stripAssignment username u).role = u.role
    ∧ (stripAssignment username u).password_hash = u.password_hash
    ∧ (stripAssignment username u).salt = u.salt
    ∧ (stripAssignment username u).status = u.status
    ∧ (stripAssignment username u).full_name = u.full_name
    ∧ (stripAssignment username u).dob = u.dob
    ∧ (stripAssignment username u).sex = u.sex
    ∧ (stripAssignment username u).pronouns = u.pronouns
    ∧ (stripAssignment username u).bio = u.bio := by
  by_cases hrole : u.role = "patient"
  · cases hA : u.assigned_clinicians with
    | none => simp [stripAssignment, hrole, hA]
    | some l =>
      by_cases hc : l ≠ [] ∧ username ∈ l
      · simp [stripAssignment, hrole, hA, hc]
      · simp [stripAssignment, hrole, hA, hc]
  · simp [stripAssignment, hrole]

theorem stripAssignment_mem_iff (username : String) (u : UserRec) (c : String)
    (hc : c ≠ username) :
    c ∈ (stripAssignment username u).assigned_clinicians.getD [] ↔
      c ∈ u.assigned_clinicians.getD [] := by
  by_cases hrole : u.role = "patient"
  · cases hA : u.assigned_clinicians with
    | none => simp [stripAssignment, hrole, hA]
    | some l =>
      by_cases hcond : l ≠ [] ∧ username ∈ l
      · simp [stripAssignment, hrole, hA, hcond, List.mem_erase_of_ne hc]
      · simp [stripAssignment, hrole, hA, hcond]
  · simp [stripAssignment, hrole]

theorem stripAssignment_not_mem (username : String) (u : UserRec)
    (hnd : (u.assigned_clinicians.getD []).Nodup) (hrole : u.role = "patient") :
    username ∉ (stripAssignment username u).assigned_clinicians.getD [] := by
  cases hA : u.assigned_clinicians with
  | none => simp [stripAssignment, hrole, hA]
  | some l =>
    rw [hA] at hnd
    simp only [Option.getD_some] at hnd
    by_cases hc : l ≠ [] ∧ username ∈ l
    · simp [stripAssignment, hrole, hA, hc]
      exact hnd.not_mem_erase
    · simp [stripAssignment, hrole, hA, hc]
      push_neg at hc
      by_cases hl : l = []
      · simp [hl]
      · exact hc hl

/-- C7: deleting a clinician user removes the clinician from every patient
record's assignment list, removes the clinician's key from every patient's
direct-thread map, and removes exactly the notes authored by that clinician
with source `clinician`; every other user field, assignment entry and
direct-thread key is unchanged. -/
theorem C7_thm (cu : Option CUser) (st : Store) (hid username : String)
    (h : Hospital)
    (hh : lookupA hid st.hospitals = some h)
    (huser : hasKeyA (userKey username "clinician") h.users = true)
    (hself : (match cu with
              | some u => u.username == username && u.role == "clinician"
              | none => false) = false)
    (hnodupA : ∀ kv ∈ h.users, ((kv.2 : UserRec).assigned_clinicians.getD []).Nodup)
    (hnodupD : ∀ kv ∈ h.chats.direct,
      ((kv.2 : List (String × List Message)).map Prod.fst).Nodup) :
    (delete_user cu st hid username "clinician").2 = true
    ∧ (getHospitalD (delete_user cu st hid username "clinician").1 hid).notes =
        h.notes.filter (fun n => !(n.author_id = username && n.source = "clinician"))
    ∧ (∀ kv ∈ (getHospitalD (delete_user cu st hid username "clinician").1 hid).users,
        (kv.2 : UserRec).role = "patient" →
        username ∉ kv.2.assigned_clinicians.getD [])
    ∧ (∀ k u, (k, u) ∈ h.users → k ≠ userKey username "clinician" →
        ∃ u', (k, u') ∈ (getHospitalD (delete_user cu st hid username "clinician").1 hid).users
          ∧ u'.username = u.username ∧ u'.role = u.role
          ∧ u'.password_hash = u.password_hash ∧ u'.salt = u.salt
          ∧ u'.status = u.status ∧ u'.full_name = u.full_name ∧ u'.dob = u.dob
          ∧ u'.sex = u.sex ∧ u'.pronouns = u.pronouns ∧ u'.bio = u.bio
          ∧ (∀ c, c ≠ username →
              (c ∈ u'.assigned_clinicians.getD [] ↔ c ∈ u.assigned_clinicians.getD [])))
    ∧ (∀ p ts, (p, ts) ∈ h.chats.direct →
        ∃ ts', (p, ts') ∈ (getHospitalD (delete_user cu st hid username "clinician").1 hid).chats.direct
          ∧ lookupA username ts' = none
          ∧ (∀ c, c ≠ username → lookupA c ts' = lookupA c ts)) := by
  have hred : delete_user cu st hid username "clinician" =
      ({ hospitals := setA hid
          { users := (eraseA (userKey username "clinician") h.users).map
              (fun kv => (kv.1, stripAssignment username kv.2)),
            notes := h.notes.filter
              (fun n => !(n.author_id = username && n.source = "clinician")),
            alerts := h.alerts,
            chats := { general := h.chats.general.map
                         (fun kv => (kv.1, kv.2.filter (fun m => m.sender ≠ username))),
                       direct := h.chats.direct.map
                         (fun kv => (kv.1, eraseA username kv.2)) } }
          st.hospitals }, true) := by
    simp [delete_user, hh, huser, hself]
  rw [hred]
  simp only [getHospitalD, lookupA_setA_self, Option.getD_some]
  refine ⟨trivial, trivial, ?_, ?_, ?_⟩
  · intro kv hmem hrole
    obtain ⟨⟨k0, u0⟩, hk0, heq⟩ := List.mem_map.mp hmem
    have hu0 : (k0, u0) ∈ h.users := mem_eraseA _ _ hk0
    have hu' : kv.2 = stripAssignment username u0 := by rw [← heq]
    rw [hu']
    rw [hu', (stripAssignment_fields username u0).2.1] at hrole
    exact stripAssignment_not_mem username u0 (hnodupA (k0, u0) hu0) hrole
  · intro k u hmem hne
    have hmem' : (k, u) ∈ eraseA (userKey username "clinician") h.users :=
      mem_eraseA_of_ne hmem hne
    refine ⟨stripAssignment username u,
      List.mem_map_of_mem (fun kv => (kv.1, stripAssignment username kv.2)) hmem',
      (stripAssignment_fields username u).1, (stripAssignment_fields username u).2.1,
      (stripAssignment_fields username u).2.2.1, (stripAssignment_fields username u).2.2.2.1,
      (stripAssignment_fields username u).2.2.2.2.1,
      (stripAssignment_fields username u).2.2.2.2.2.1,
      (stripAssignment_fields username u).2.2.2.2.2.2.1,
      (stripAssignment_fields username u).2.2.2.2.2.2.2.1,
      (stripAssignment_fields username u).2.2.2.2.2.2.2.2.1,
      (stripAssignment_fields username u).2.2.2.2.2.2.2.2.2,
      fun c hc => stripAssignment_mem_iff username u c hc⟩
  · intro p ts hmem
    exact ⟨eraseA username ts,
      List.mem_map_of_mem (fun kv => (kv.1, eraseA username kv.2)) hmem,
      lookupA_eraseA_self (hnodupD (p, ts) hmem),
      fun c hc => lookupA_eraseA_ne ts hc⟩

/-- C7 witness: deleting clinician `c1` from the demo hospital succeeds and
leaves exactly the notes not authored by `c1` with source clinician. -/
theorem C7_witness :
    (delete_user none demoStore "H1" "c1" "clinician").2 = true
    ∧ (getHospitalD (delete_user none demoStore "H1" "c1" "clinician").1 "H1").notes =
        demoHospital.notes.filter
          (fun n => !(n.author_id = "c1" && n.source = "clinician")) :=
  ⟨(C7_thm none demoStore "H1" "c1" demoHospital (by decide) (by decide) (by decide)
      (by decide) (by decide)).1,
   (C7_thm none demoStore "H1" "c1" demoHospital (by decide) (by decide) (by decide)
      (by decide) (by decide)).2.1⟩

/-! ### Stable-sort lemmas -/

theorem mem_insertSorted {α : Type} (le : α → α → Bool) (a x : α) (l : List α) :
    x ∈ insertSorted le a l ↔ x = a ∨ x ∈ l := by
  induction l with
  | nil => simp [insertSorted]
  | cons b l ih =>
    by_cases h : le b a
    · simp only [insertSorted, if_pos h, List.mem_cons, ih]
      tauto
    · simp only [insertSorted, if_neg h, List.mem_cons]

theorem pairwise_insertSorted {α : Type} (le : α → α → Bool)
    (htrans : ∀ a b c, le a b = true → le b c = true → le a c = true)
    (htot : ∀ a b, (le a b || le b a) = true)
    (a : α) (l : List α) (hl : l.Pairwise (fun x y => le x y = true)) :
    (insertSorted le a l).Pairwise (fun x y => le x y = true) := by
  induction l with
  | nil => simp [insertSorted]
  | cons b l ih =>
    rcases List.pairwise_cons.mp hl with ⟨hb, hl'⟩
    by_cases h : le b a
    · rw [insertSorted, if_pos h]
      refine List.pairwise_cons.mpr ⟨?_, ih hl'⟩
      intro x hx
      rcases (mem_insertSorted le a x l).mp hx with rfl | hx
      · exact h
      · exact hb x hx
    · rw [insertSorted, if_neg h]
      have hab : le a b = true := by
        rcases (by simpa using htot a b : le a b = true ∨ le b a = true) with h' | h'
        · exact h'
        · exact absurd h' h
      refine List.pairwise_cons.mpr ⟨?_, hl⟩
      intro x hx
      rcases List.mem_cons.mp hx with rfl | hx
      · exact hab
      · exact htrans a b x hab (hb x hx)

theorem perm_insertSorted {α : Type} (le : α → α → Bool) (a : α) (l : List α) :
    (insertSorted le a l).Perm (a :: l) := by
  induction l with
  | nil => rfl
  | cons b l ih =>
    by_cases h : le b a
    · rw [insertSorted, if_pos h]
      exact (ih.cons b).trans (List.Perm.swap a b l)
    · rw [insertSorted, if_neg h]

theorem perm_foldl_insert {α : Type} (le : α → α → Bool) (l acc : List α) :
    (l.foldl (fun acc x => insertSorted le x acc) acc).Perm (acc ++ l) := by
  induction l generalizing acc with
  | nil => simp
  | cons x l ih =>
    have h1 : ((x :: l).foldl (fun acc x => insertSorted le x acc) acc) =
        l.foldl (fun acc x => insertSorted le x acc) (insertSorted le x acc) := rfl
    rw [h1]
    exact ((ih _).trans ((perm_insertSorted le x acc).append_right l)).trans
      List.perm_middle.symm

theorem perm_stableSort {α : Type} (le : α → α → Bool) (l : List α) :
    (stableSort le l).Perm l := by
  simpa using perm_foldl_insert le l []

theorem pairwise_foldl_insert {α : Type} (le : α → α → Bool)
    (htrans : ∀ a b c, le a b = true → le b c = true → le a c = true)
    (htot : ∀ a b, (le a b || le b a) = true)
    (l acc : List α) (hacc : acc.Pairwise (fun x y => le x y = true)) :
    (l.foldl (fun acc x => insertSorted le x acc) acc).Pairwise
      (fun x y => le x y = true) := by
  induction l generalizing acc with
  | nil => exact hacc
  | cons x l ih => exact ih _ (pairwise_insertSorted le htrans htot x acc hacc)

theorem msgLe_trans (a b c : Message) (hab : msgLe a b = true) (hbc : msgLe b c = true) :
    msgLe a c = true := by
  simp only [msgLe, decide_eq_true_eq] at *
  exact le_trans hab hbc

theorem msgLe_total (a b : Message) : (msgLe a b || msgLe b a) = true := by
  simp only [msgLe, Bool.or_eq_true, decide_eq_true_eq]
  exact le_total a.timestamp b.timestamp

theorem sorted_stableSort_timestamps (l : List Message) :
    (stableSort msgLe l).Pairwise (fun a b => a.timestamp ≤ b.timestamp) :=
  (pairwise_foldl_insert msgLe msgLe_trans msgLe_total l [] List.Pairwise.nil).imp
    (fun h => by simpa [msgLe, decide_eq_true_eq] using h)

theorem pyTail_suffix {α : Type} (l : List α) (n : Int) : pyTail l n <:+ l := by
  unfold pyTail
  by_cases h : 0 < n
  · rw [if_pos h]
    exact List.drop_suffix _ _
  · rw [if_neg h]
    exact List.drop_suffix _ _

theorem pyTail_length_le {α : Type} (l : List α) (n : Int) (hn : 0 < n) :
    (pyTail l n).length ≤ n.toNat := by
  unfold pyTail
  rw [if_pos hn]
  rw [List.length_drop]
  omega

/-- C8 counterexample: with a one-message general thread, supplying limit 0
returns the whole thread (`thread[-0:]` is the full list), so the result has
1 > 0 messages — "at most N for every N" fails at N = 0. -/
theorem C8_counterexample :
    ¬ ((get_general_messages demoStore "H1" "p1" (some 0)).2.length ≤ 0) := by
  decide

/-- C8 (amended): both reads return the thread sorted ascending by
timestamp; for every *positive* limit N the result is a suffix of the
sorted thread (its most recent messages) of length at most N.  With limit 0
Python's `thread[-0:]` returns the entire thread, and a negative limit drops
messages from the front instead. -/
theorem C8_amended_thm (st : Store) (hid pu clin : String) (limit : Option Int) (n : Int) :
    ((get_general_messages st hid pu limit).2).Pairwise
        (fun a b => a.timestamp ≤ b.timestamp)
    ∧ ((get_direct_messages st hid pu clin limit).2).Pairwise
        (fun a b => a.timestamp ≤ b.timestamp)
    ∧ (limit = some n → 0 < n →
        (get_general_messages st hid pu limit).2.length ≤ n.toNat
        ∧ (get_general_messages st hid pu limit).2 <:+
            (get_general_messages st hid pu none).2
        ∧ (get_direct_messages st hid pu clin limit).2.length ≤ n.toNat
        ∧ (get_direct_messages st hid pu clin limit).2 <:+
            (get_direct_messages st hid pu clin none).2) := by
  have hg : ∀ lim, (get_general_messages st hid pu lim).2 =
      (match lim with
       | none => stableSort msgLe (ensure_general_thread st hid pu).2
       | some m => pyTail (stableSort msgLe (ensure_general_thread st hid pu).2) m) := by
    intro lim
    rcases hE : ensure_general_thread st hid pu with ⟨st1, thread⟩
    cases lim <;> simp [get_general_messages, hE]
  have hd : ∀ lim, (get_direct_messages st hid pu clin lim).2 =
      (match lim with
       | none => stableSort msgLe (ensure_direct_thread st hid pu clin).2
       | some m => pyTail (stableSort msgLe (ensure_direct_thread st hid pu clin).2) m) := by
    intro lim
    rcases hE : ensure_direct_thread st hid pu clin with ⟨st1, thread⟩
    cases lim <;> simp [get_direct_messages, hE]
  refine ⟨?_, ?_, ?_⟩
  · rw [hg]
    cases limit with
    | none => exact sorted_stableSort_timestamps _
    | some m =>
      exact List.Pairwise.sublist (pyTail_suffix _ m).sublist
        (sorted_stableSort_timestamps _)
  · rw [hd]
    cases limit with
    | none => exact sorted_stableSort_timestamps _
    | some m =>
      exact List.Pairwise.sublist (pyTail_suffix _ m).sublist
        (sorted_stableSort_timestamps _)
  · intro hlim hn
    subst hlim
    rw [hg, hg, hd, hd]
    exact ⟨pyTail_length_le _ n hn, pyTail_suffix _ n,
      pyTail_length_le _ n hn, pyTail_suffix _ n⟩

/-- C8 amended-claim witness: with limit 1 both reads return at most one
message on the demo store. -/
theorem C8_witness :
    (get_general_messages demoStore "H1" "p1" (some 1)).2.length ≤ (1 : Int).toNat
    ∧ (get_direct_messages demoStore "H1" "p1" "c1" (some 1)).2.length ≤ (1 : Int).toNat :=
  ⟨((C8_amended_thm demoStore "H1" "p1" "c1" (some 1) 1).2.2 rfl (by decide)).1,
   ((C8_amended_thm demoStore "H1" "p1" "c1" (some 1) 1).2.2 rfl (by decide)).2.2.1⟩

/-- C10: for an existing user, `update_user_profile` with any non-empty
`new_password` — weak or not — returns True and replaces the stored salt and
password hash with freshly derived ones; the strength policy is applied only
by `register_user`, which rejects any weak password with the
`weak_password` sentinel. -/
theorem C10_thm (sha : String → String) (newSalt : String) (st : Store)
    (hid username role : String) (details : ProfileDetails) (h : Hospital) (u : UserRec)
    (hh : lookupA hid st.hospitals = some h)
    (hu : lookupA (userKey username role) h.users = some u)
    (pw : String) (hpw : details.new_password = some pw) (hne : pw ≠ "") :
    (update_user_profile sha newSalt st hid username role details).2 = true
    ∧ (∃ u', lookupA (userKey username role)
          (getHospitalD (update_user_profile sha newSalt st hid username role details).1 hid).users
          = some u'
        ∧ u'.salt = newSalt ∧ u'.password_hash = sha (newSalt ++ pw))
    ∧ (∀ p fn dob sex pn bio, is_strong_password p = false →
        (register_user sha newSalt st username p role hid fn dob sex pn bio).2 =
          RegisterResult.weak_password) := by
  refine ⟨?_, ?_, ?_⟩
  · simp [update_user_profile, hh, hu, hpw, hne]
  · simp only [update_user_profile, hh, hu, hpw]
    rw [if_pos hne]
    simp only [getHospitalD, lookupA_setA_self, Option.getD_some]
    exact ⟨_, rfl, rfl, rfl⟩
  · intro p fn dob sex pn bio hweak
    simp [register_user, hweak]

/-- C10 witness: changing `p1`'s password to the weak string `weak` succeeds
even though registration would reject it. -/
theorem C10_witness :
    is_strong_password "weak" = false
    ∧ (update_user_profile (fun s => s ++ "#") "SALT2" demoStore "H1" "p1" "patient"
        { full_name := none, dob := none, sex := none, pronouns := none, bio := none,
          new_password := some "weak" }).2 = true
    ∧ (register_user (fun s => s ++ "#") "SALT2" demoStore "p1" "weak" "patient" "H1"
        "" "" "" "" "").2 = RegisterResult.weak_password :=
  ⟨by decide,
   (C10_thm (fun s => s ++ "#") "SALT2" demoStore "H1" "p1" "patient"
      { full_name := none, dob := none, sex := none, pronouns := none, bio := none,
        new_password := some "weak" } demoHospital uP1 (by decide) (by decide)
      "weak" rfl (by decide)).1,
   (C10_thm (fun s => s ++ "#") "SALT2" demoStore "H1" "p1" "patient"
      { full_name := none, dob := none, sex := none, pronouns := none, bio := none,
        new_password := some "weak" } demoHospital uP1 (by decide) (by decide)
      "weak" rfl (by decide)).2.2 "weak" "" "" "" "" "" (by decide)⟩

/-! ### The assignment-list invariant (C9) -/

/-- Every user record in the list carries a duplicate-free assignment list. -/
def UsersOk (users : List (String × UserRec)) : Prop :=
  ∀ kv ∈ users, ((kv.2 : UserRec).assigned_clinicians.getD []).Nodup

/-- The C9 invariant: in every hospital, every user record's
`assigned_clinicians` list has no duplicate usernames. -/
def AssignNodup (st : Store) : Prop :=
  ∀ hp ∈ st.hospitals, UsersOk (hp : String × Hospital).2.users

theorem usersOk_setA (users : List (String × UserRec)) (key : String) (u1 : UserRec)
    (hu : UsersOk users) (h1 : (u1.assigned_clinicians.getD []).Nodup) :
    UsersOk (setA key u1 users) := by
  intro kv hkv
  obtain ⟨k', u'⟩ := kv
  rcases mem_setA key u1 users hkv with ⟨_, rfl⟩ | hold
  · exact h1
  · exact hu (k', u') hold

theorem usersOk_eraseA (users : List (String × UserRec)) (key : String)
    (hu : UsersOk users) : UsersOk (eraseA key users) := by
  intro kv hkv
  obtain ⟨k', u'⟩ := kv
  exact hu (k', u') (mem_eraseA key users hkv)

theorem assignNodup_setA_list (l : List (String × Hospital)) (hid : String)
    (h1 : Hospital) (hl : AssignNodup { hospitals := l }) (hh : UsersOk h1.users) :
    AssignNodup { hospitals := setA hid h1 l } := by
  intro hp hmem
  obtain ⟨hid', h'⟩ := hp
  rcases mem_setA hid h1 l hmem with ⟨_, rfl⟩ | hold
  · exact hh
  · exact hl (hid', h') hold

theorem usersOk_getHospitalD (st : Store) (hid : String) (hst : AssignNodup st) :
    UsersOk (getHospitalD st hid).users := by
  unfold getHospitalD
  cases hl : lookupA hid st.hospitals with
  | none =>
    intro kv hkv
    simp [emptyHospital] at hkv
  | some h =>
    intro kv hkv
    exact hst (hid, h) (mem_of_lookupA hl) kv hkv

theorem usersOk_setdefault_snd (st : Store) (hid : String) (hst : AssignNodup st) :
    UsersOk ((setdefaultA hid emptyHospital st.hospitals).2).users := by
  unfold setdefaultA
  cases hl : lookupA hid st.hospitals with
  | none =>
    intro kv hkv
    simp [emptyHospital] at hkv
  | some h =>
    intro kv hkv
    exact hst (hid, h) (mem_of_lookupA hl) kv hkv

theorem assignNodup_setdefault_fst (st : Store) (hid : String) (hst : AssignNodup st) :
    AssignNodup { hospitals := (setdefaultA hid emptyHospital st.hospitals).1 } := by
  unfold setdefaultA
  cases hl : lookupA hid st.hospitals with
  | none =>
    intro hp hmem
    rcases List.mem_append.mp hmem with hm | hm
    · exact hst hp hm
    · obtain ⟨hid', h'⟩ := hp
      simp only [List.mem_singleton, Prod.mk.injEq] at hm
      rw [hm.2]
      intro kv hkv
      simp [emptyHospital] at hkv
  | some h => exact hst

theorem stripAssignment_nodup (username : String) (u : UserRec)
    (h : (u.assigned_clinicians.getD []).Nodup) :
    ((stripAssignment username u).assigned_clinicians.getD []).Nodup := by
  by_cases hrole : u.role = "patient"
  · cases hA : u.assigned_clinicians with
    | none => simp [stripAssignment, hrole, hA]
    | some l =>
      rw [hA] at h
      simp only [Option.getD_some] at h
      by_cases hc : l ≠ [] ∧ username ∈ l
      · simp [stripAssignment, hrole, hA, hc]
        exact h.erase username
      · simpa [stripAssignment, hrole, hA, hc] using h
  · simpa [stripAssignment, hrole] using h

theorem assignNodup_register (sha : String → String)
    (salt username password role hid fn dob sex pn bio : String) (st : Store)
    (hst : AssignNodup st) :
    AssignNodup (register_user sha salt st username password role hid fn dob sex pn bio).1 := by
  have hB : AssignNodup { hospitals := setA hid emptyHospital st.hospitals } :=
    assignNodup_setA_list _ _ _ hst (by intro kv hkv; simp [emptyHospital] at hkv)
  have hOkB : UsersOk (getHospitalD { hospitals := setA hid emptyHospital st.hospitals } hid).users :=
    usersOk_getHospitalD _ _ hB
  have hOkS : UsersOk (getHospitalD st hid).users := usersOk_getHospitalD _ _ hst
  unfold register_user
  dsimp only
  repeat' split
  all_goals
    first
      | exact hst
      | exact hB
      | exact assignNodup_setA_list _ _ _ hB (usersOk_setA _ _ _ hOkB (by simp))
      | exact assignNodup_setA_list _ _ _ hst (usersOk_setA _ _ _ hOkS (by simp))

theorem assignNodup_approve (username role hid : String) (st : Store)
    (hst : AssignNodup st) : AssignNodup (approve_user st username role hid).1 := by
  unfold approve_user
  cases hl : lookupA hid st.hospitals with
  | none => exact hst
  | some h =>
    dsimp only
    cases hu : lookupA (userKey username role) h.users with
    | none => exact hst
    | some u =>
      dsimp only
      have hnd : (u.assigned_clinicians.getD []).Nodup :=
        hst (hid, h) (mem_of_lookupA hl) (userKey username role, u) (mem_of_lookupA hu)
      exact assignNodup_setA_list _ _ _ hst
        (usersOk_setA _ _ _
          (fun kv hkv => hst (hid, h) (mem_of_lookupA hl) kv hkv) hnd)

theorem assignNodup_update_profile (sha : String → String) (newSalt hid username role : String)
    (d : ProfileDetails) (st : Store) (hst : AssignNodup st) :
    AssignNodup (update_user_profile sha newSalt st hid username role d).1 := by
  unfold update_user_profile
  cases hl : lookupA hid st.hospitals with
  | none => exact hst
  | some h =>
    dsimp only
    cases hu : lookupA (userKey username role) h.users with
    | none => exact hst
    | some u =>
      dsimp only
      have hnd : (u.assigned_clinicians.getD []).Nodup :=
        hst (hid, h) (mem_of_lookupA hl) (userKey username role, u) (mem_of_lookupA hu)
      have hOk : UsersOk h.users := fun kv hkv => hst (hid, h) (mem_of_lookupA hl) kv hkv
      cases d.new_password with
      | none => exact assignNodup_setA_list _ _ _ hst (usersOk_setA _ _ _ hOk hnd)
      | some pw =>
        by_cases hpw : pw ≠ ""
        · simp only [if_pos hpw]
          exact assignNodup_setA_list _ _ _ hst (usersOk_setA _ _ _ hOk hnd)
        · simp only [if_neg hpw]
          exact assignNodup_setA_list _ _ _ hst (usersOk_setA _ _ _ hOk hnd)

theorem assignNodup_assign (hid pu cl : String) (st : Store) (hst : AssignNodup st) :
    AssignNodup (assign_clinician_to_patient st hid pu cl).1 := by
  unfold assign_clinician_to_patient
  cases hl : lookupA hid st.hospitals with
  | none => exact hst
  | some h =>
    dsimp only
    cases hu : lookupA (userKey pu "patient") h.users with
    | none => exact hst
    | some p =>
      dsimp only
      have hnd : (p.assigned_clinicians.getD []).Nodup :=
        hst (hid, h) (mem_of_lookupA hl) (userKey pu "patient", p) (mem_of_lookupA hu)
      have hOk : UsersOk h.users := fun kv hkv => hst (hid, h) (mem_of_lookupA hl) kv hkv
      by_cases hcl : cl ∈ p.assigned_clinicians.getD []
      · simp only [if_pos hcl]
        exact hst
      · simp only [if_neg hcl]
        refine assignNodup_setA_list _ _ _ hst (usersOk_setA _ _ _ hOk ?_)
        simp only [Option.getD_some]
        rw [List.nodup_append]
        refine ⟨hnd, List.nodup_singleton cl, ?_⟩
        intro a ha hac
        have hac' : a = cl := by simpa using hac
        rw [hac'] at ha
        exact hcl ha

theorem assignNodup_unassign (hid pu cl : String) (st : Store) (hst : AssignNodup st) :
    AssignNodup (unassign_clinician_from_patient st hid pu cl).1 := by
  unfold unassign_clinician_from_patient
  cases hl : lookupA hid st.hospitals with
  | none => exact hst
  | some h =>
    dsimp only
    cases hu : lookupA (userKey pu "patient") h.users with
    | none => exact hst
    | some p =>
      dsimp only
      have hOk : UsersOk h.users := fun kv hkv => hst (hid, h) (mem_of_lookupA hl) kv hkv
      cases hA : p.assigned_clinicians with
      | none => exact hst
      | some l =>
        dsimp only
        have hnd : l.Nodup := by
          have := hst (hid, h) (mem_of_lookupA hl) (userKey pu "patient", p) (mem_of_lookupA hu)
          rw [hA] at this
          simpa using this
        by_cases hcl : cl ∈ l
        · simp only [if_pos hcl]
          refine assignNodup_setA_list _ _ _ hst (usersOk_setA _ _ _ hOk ?_)
          simpa using hnd.erase cl
        · simp only [if_neg hcl]
          exact hst

theorem assignNodup_delete_user (cu : Option CUser) (hid username role : String)
    (st : Store) (hst : AssignNodup st) :
    AssignNodup (delete_user cu st hid username role).1 := by
  unfold delete_user
  cases hl : lookupA hid st.hospitals with
  | none => exact hst
  | some h =>
    dsimp only
    have hOk : UsersOk h.users := fun kv hkv => hst (hid, h) (mem_of_lookupA hl) kv hkv
    have hOkE : UsersOk (eraseA (userKey username role) h.users) :=
      usersOk_eraseA _ _ hOk
    repeat' split
    all_goals first
      | exact hst
      | exact assignNodup_setA_list _ _ _ hst hOkE
      | (refine assignNodup_setA_list _ _ _ hst ?_
         intro kv hkv
         obtain ⟨k', u'⟩ := kv
         rcases List.mem_map.mp hkv with ⟨⟨k0, u0⟩, hk0, heq⟩
         have : u' = stripAssignment username u0 := by
           have := congrArg Prod.snd heq
           simpa using this.symm
         rw [this]
         exact stripAssignment_nodup username u0 (hOkE (k0, u0) hk0))

theorem assignNodup_add_note (note : Note) (hid : String) (st : Store)
    (hst : AssignNodup st) : AssignNodup (add_note st note hid) := by
  unfold add_note
  cases hl : lookupA hid st.hospitals with
  | none => exact hst
  | some h =>
    dsimp only
    have hOk : UsersOk h.users := fun kv hkv => hst (hid, h) (mem_of_lookupA hl) kv hkv
    split <;> exact assignNodup_setA_list _ _ _ hst hOk

theorem assignNodup_delete_note (note_id hid : String) (st : Store)
    (hst : AssignNodup st) : AssignNodup (delete_note st note_id hid).1 := by
  unfold delete_note
  cases hl : lookupA hid st.hospitals with
  | none => exact hst
  | some h =>
    dsimp only
    exact assignNodup_setA_list _ _ _ hst
      (fun kv hkv => hst (hid, h) (mem_of_lookupA hl) kv hkv)

theorem assignNodup_dismiss (hid aid : String) (st st' : Store) (b : Bool)
    (heq : dismiss_alert st hid aid = Except.ok (st', b)) (hst : AssignNodup st) :
    AssignNodup st' := by
  unfold dismiss_alert at heq
  cases hl : lookupA hid st.hospitals with
  | none =>
    rw [hl] at heq
    exact absurd heq (by simp)
  | some h =>
    rw [hl] at heq
    simp only [Except.ok.injEq, Prod.mk.injEq] at heq
    rw [← heq.1]
    exact assignNodup_setA_list _ _ _ hst
      (fun kv hkv => hst (hid, h) (mem_of_lookupA hl) kv hkv)

theorem assignNodup_ensure_general (st : Store) (hid pu : String)
    (hst : AssignNodup st) : AssignNodup (ensure_general_thread st hid pu).1 := by
  unfold ensure_general_thread
  dsimp only
  exact assignNodup_setA_list _ _ _ (assignNodup_setdefault_fst st hid hst)
    (usersOk_setdefault_snd st hid hst)

theorem assignNodup_ensure_direct (st : Store) (hid pu cl : String)
    (hst : AssignNodup st) : AssignNodup (ensure_direct_thread st hid pu cl).1 := by
  unfold ensure_direct_thread
  dsimp only
  exact assignNodup_setA_list _ _ _ (assignNodup_setdefault_fst st hid hst)
    (usersOk_setdefault_snd st hid hst)

theorem assignNodup_addgen (hid pu su sr msg mid ts : String) (st : Store)
    (hst : AssignNodup st) :
    AssignNodup (add_general_message st hid pu su sr msg mid ts).1 := by
  unfold add_general_message
  dsimp only
  split
  · exact hst
  · rcases hE : ensure_general_thread st hid pu with ⟨st1, thread⟩
    have hst1 : AssignNodup st1 := by
      have := assignNodup_ensure_general st hid pu hst
      rw [hE] at this
      exact this
    dsimp only
    exact assignNodup_setA_list _ _ _ hst1 (usersOk_getHospitalD st1 hid hst1)

theorem assignNodup_adddir (hid pu cl su sr msg mid ts : String) (st : Store)
    (hst : AssignNodup st) :
    AssignNodup (add_direct_message st hid pu cl su sr msg mid ts).1 := by
  unfold add_direct_message
  dsimp only
  split
  · exact hst
  · split
    · exact hst
    · rcases hE : ensure_direct_thread st hid pu cl with ⟨st1, thread⟩
      have hst1 : AssignNodup st1 := by
        have := assignNodup_ensure_direct st hid pu cl hst
        rw [hE] at this
        exact this
      dsimp only
      exact assignNodup_setA_list _ _ _ hst1 (usersOk_getHospitalD st1 hid hst1)

theorem assignNodup_cleargen (hid pu : String) (st : Store) (hst : AssignNodup st) :
    AssignNodup (clear_general_messages st hid pu).1 := by
  unfold clear_general_messages
  dsimp only
  split <;>
    exact assignNodup_setA_list _ _ _ (assignNodup_setdefault_fst st hid hst)
      (usersOk_setdefault_snd st hid hst)

theorem assignNodup_cleardir (hid pu cl : String) (st : Store) (hst : AssignNodup st) :
    AssignNodup (clear_direct_messages st hid pu cl).1 := by
  unfold clear_direct_messages
  dsimp only
  split <;>
    exact assignNodup_setA_list _ _ _ (assignNodup_setdefault_fst st hid hst)
      (usersOk_setdefault_snd st hid hst)

theorem assignNodup_update_note (hid note_id : String) (upd : NoteUpdate) (st : Store)
    (hst : AssignNodup st) : AssignNodup (update_note st hid note_id upd).1 := by
  unfold update_note
  cases hl : lookupA hid st.hospitals with
  | none => exact hst
  | some h =>
    dsimp only
    have hOk : UsersOk h.users := fun kv hkv => hst (hid, h) (mem_of_lookupA hl) kv hkv
    rcases hU : updateFirstNote note_id upd h.notes with ⟨notes', b⟩
    simp only [hU]
    split
    · exact assignNodup_setA_list _ _ _ hst hOk
    · exact hst

theorem assignNodup_genfb (note_id hid : String) (fb : Option String) (st : Store)
    (hst : AssignNodup st) :
    AssignNodup (generate_and_store_ai_feedback st note_id hid fb).1 := by
  unfold generate_and_store_ai_feedback
  cases hl : lookupA hid st.hospitals with
  | none => exact hst
  | some h =>
    dsimp only
    have hOk : UsersOk h.users := fun kv hkv => hst (hid, h) (mem_of_lookupA hl) kv hkv
    rcases hU : genFeedbackNotes note_id fb h.notes with ⟨notes', b⟩
    simp only [hU]
    split
    · exact assignNodup_setA_list _ _ _ hst hOk
    · exact hst

theorem assignNodup_apprfb (note_id hid txt : String) (st : Store)
    (hst : AssignNodup st) : AssignNodup (approve_ai_feedback st note_id hid txt).1 := by
  unfold approve_ai_feedback
  cases hl : lookupA hid st.hospitals with
  | none => exact hst
  | some h =>
    dsimp only
    have hOk : UsersOk h.users := fun kv hkv => hst (hid, h) (mem_of_lookupA hl) kv hkv
    rcases hU : approveFeedbackNotes note_id txt h.notes with ⟨notes', b⟩
    simp only [hU]
    split
    · exact assignNodup_setA_list _ _ _ hst hOk
    · exact hst

theorem assignNodup_rejfb (note_id hid : String) (st : Store)
    (hst : AssignNodup st) : AssignNodup (reject_ai_feedback st note_id hid).1 := by
  unfold reject_ai_feedback
  cases hl : lookupA hid st.hospitals with
  | none => exact hst
  | some h =>
    dsimp only
    have hOk : UsersOk h.users := fun kv hkv => hst (hid, h) (mem_of_lookupA hl) kv hkv
    rcases hU : rejectFeedbackNotes note_id h.notes with ⟨notes', b⟩
    simp only [hU]
    split
    · exact assignNodup_setA_list _ _ _ hst hOk
    · exact hst

theorem assignNodup_getgen (hid pu : String) (limit : Option Int) (st : Store)
    (hst : AssignNodup st) : AssignNodup (get_general_messages st hid pu limit).1 := by
  unfold get_general_messages
  rcases hE : ensure_general_thread st hid pu with ⟨st1, thread⟩
  have hst1 : AssignNodup st1 := by
    have := assignNodup_ensure_general st hid pu hst
    rw [hE] at this
    exact this
  cases limit <;> simp only [hE] <;> exact hst1

theorem assignNodup_getdir (hid pu cl : String) (limit : Option Int) (st : Store)
    (hst : AssignNodup st) :
    AssignNodup (get_direct_messages st hid pu cl limit).1 := by
  unfold get_direct_messages
  rcases hE : ensure_direct_thread st hid pu cl with ⟨st1, thread⟩
  have hst1 : AssignNodup st1 := by
    have := assignNodup_ensure_direct st hid pu cl hst
    rw [hE] at this
    exact this
  cases limit <;> simp only [hE] <;> exact hst1

theorem assignNodup_listgen (hid : String) (st : Store) (hst : AssignNodup st) :
    AssignNodup (list_general_patients st hid).1 := by
  unfold list_general_patients
  rcases hS : setdefaultA hid emptyHospital st.hospitals with ⟨hospitals1, h⟩
  simp only [hS]
  have := assignNodup_setdefault_fst st hid hst
  rw [hS] at this
  exact this

theorem assignNodup_listdir (hid cl : String) (st : Store) (hst : AssignNodup st) :
    AssignNodup (list_direct_threads_for_clinician st hid cl).1 := by
  unfold list_direct_threads_for_clinician
  rcases hS : setdefaultA hid emptyHospital st.hospitals with ⟨hospitals1, h⟩
  simp only [hS]
  have := assignNodup_setdefault_fst st hid hst
  rw [hS] at this
  exact this

/-- One service operation applied to the store, with arbitrary session user,
arguments and generated salts/ids/timestamps.  This covers every operation
of `CareLogService` and `ChatService` that can change the store: all writes,
plus the chat reads and thread listers, whose `setdefault` calls create
missing hospitals and threads.  `login`/`logout` touch only the session,
never the store; the remaining query methods only read.  `dismiss_alert`
contributes a step only when it returns instead of raising. -/
inductive Step : Store → Store → Prop where
  | register (sha : String → String)
      (salt username password role hid fn dob sex pn bio : String) (st : Store) :
      Step st (register_user sha salt st username password role hid fn dob sex pn bio).1
  | approve (username role hid : String) (st : Store) :
      Step st (approve_user st username role hid).1
  | update_profile (sha : String → String) (newSalt hid username role : String)
      (d : ProfileDetails) (st : Store) :
      Step st (update_user_profile sha newSalt st hid username role d).1
  | del_user (cu : Option CUser) (hid username role : String) (st : Store) :
      Step st (delete_user cu st hid username role).1
  | assign (hid pu cl : String) (st : Store) :
      Step st (assign_clinician_to_patient st hid pu cl).1
  | unassign (hid pu cl : String) (st : Store) :
      Step st (unassign_clinician_from_patient st hid pu cl).1
  | addnote (note : Note) (hid : String) (st : Store) :
      Step st (add_note st note hid)
  | delnote (note_id hid : String) (st : Store) :
      Step st (delete_note st note_id hid).1
  | dismiss (hid aid : String) (st st' : Store) (b : Bool)
      (h : dismiss_alert st hid aid = Except.ok (st', b)) : Step st st'
  | addgen (hid pu su sr msg mid ts : String) (st : Store) :
      Step st (add_general_message st hid pu su sr msg mid ts).1
  | adddir (hid pu cl su sr msg mid ts : String) (st : Store) :
      Step st (add_direct_message st hid pu cl su sr msg mid ts).1
  | cleargen (hid pu : String) (st : Store) :
      Step st (clear_general_messages st hid pu).1
  | cleardir (hid pu cl : String) (st : Store) :
      Step st (clear_direct_messages st hid pu cl).1
  | updnote (hid note_id : String) (upd : NoteUpdate) (st : Store) :
      Step st (update_note st hid note_id upd).1
  | genfb (note_id hid : String) (fb : Option String) (st : Store) :
      Step st (generate_and_store_ai_feedback st note_id hid fb).1
  | apprfb (note_id hid txt : String) (st : Store) :
      Step st (approve_ai_feedback st note_id hid txt).1
  | rejfb (note_id hid : String) (st : Store) :
      Step st (reject_ai_feedback st note_id hid).1
  | getgen (hid pu : String) (limit : Option Int) (st : Store) :
      Step st (get_general_messages st hid pu limit).1
  | getdir (hid pu cl : String) (limit : Option Int) (st : Store) :
      Step st (get_direct_messages st hid pu cl limit).1
  | listgen (hid : String) (st : Store) :
      Step st (list_general_patients st hid).1
  | listdir (hid cl : String) (st : Store) :
      Step st (list_direct_threads_for_clinician st hid cl).1

theorem step_preserves_assignNodup {st st' : Store} (hstep : Step st st')
    (hst : AssignNodup st) : AssignNodup st' := by
  cases hstep with
  | register sha salt username password role hid fn dob sex pn bio st =>
    exact assignNodup_register sha salt username password role hid fn dob sex pn bio st hst
  | approve username role hid st => exact assignNodup_approve username role hid st hst
  | update_profile sha newSalt hid username role d st =>
    exact assignNodup_update_profile sha newSalt hid username role d st hst
  | del_user cu hid username role st =>
    exact assignNodup_delete_user cu hid username role st hst
  | assign hid pu cl st => exact assignNodup_assign hid pu cl st hst
  | unassign hid pu cl st => exact assignNodup_unassign hid pu cl st hst
  | addnote note hid st => exact assignNodup_add_note note hid st hst
  | delnote note_id hid st => exact assignNodup_delete_note note_id hid st hst
  | dismiss =>
    rename_i hid aid b h
    exact assignNodup_dismiss hid aid _ _ b h hst
  | addgen hid pu su sr msg mid ts st =>
    exact assignNodup_addgen hid pu su sr msg mid ts st hst
  | adddir hid pu cl su sr msg mid ts st =>
    exact assignNodup_adddir hid pu cl su sr msg mid ts st hst
  | cleargen hid pu st => exact assignNodup_cleargen hid pu st hst
  | cleardir hid pu cl st => exact assignNodup_cleardir hid pu cl st hst
  | updnote hid note_id upd st => exact assignNodup_update_note hid note_id upd st hst
  | genfb note_id hid fb st => exact assignNodup_genfb note_id hid fb st hst
  | apprfb note_id hid txt st => exact assignNodup_apprfb note_id hid txt st hst
  | rejfb note_id hid st => exact assignNodup_rejfb note_id hid st hst
  | getgen hid pu limit st => exact assignNodup_getgen hid pu limit st hst
  | getdir hid pu cl limit st => exact assignNodup_getdir hid pu cl limit st hst
  | listgen hid st => exact assignNodup_listgen hid st hst
  | listdir hid cl st => exact assignNodup_listdir hid cl st hst

/-- C9: in every store reachable from the empty store by any sequence of the
service's mutating operations, every user record's `assigned_clinicians`
list contains no duplicate usernames — `register_user` initializes the list
empty and `assign_clinician_to_patient` appends a clinician only when not
already present. -/
theorem C9_thm (st : Store) (h : Relation.ReflTransGen Step emptyStore st) :
    AssignNodup st := by
  induction h with
  | refl =>
    intro hp hmem
    simp [emptyStore] at hmem
  | tail hsteps hstep ih => exact step_preserves_assignNodup hstep ih

/-- C9 witness: the store after registering one admin (a one-step run)
satisfies the invariant. -/
theorem C9_witness :
    AssignNodup (register_user (fun s => s) "S1" emptyStore "a1" "Str0ng!Aa"
      "admin" "H1" "" "" "" "" "").1 :=
  C9_thm _ (Relation.ReflTransGen.single
    (Step.register (fun s => s) "S1" "a1" "Str0ng!Aa" "admin" "H1" "" "" "" "" "" emptyStore))

end CareLog
